import Mathlib

/-
Verification development for the Grokipedia proxy API (src/main.py).

The HTML-extraction pipeline of src/main.py is shallowly embedded here:
Python strings become `List Char`, the BeautifulSoup document tree becomes
the mutual inductive `Node`/`NodeList` (elements with name, attributes and
children, plus bare text nodes), and each extraction function of main.py
becomes a computable Lean function over that tree.  BeautifulSoup
behaviours relied upon by the code are modelled explicitly:
`find`/`find_all` traverse the tree in document (pre)order and, when given
tag filters, match only element nodes; `find_next_siblings()` with no
string filter yields only element siblings; `tag.string` is the text of a
single-child chain; `get_text(strip=True)` strips each text fragment,
drops the empty ones and joins the rest.  Python regular expressions used
by main.py are small enough to be implemented directly with their
leftmost / greedy / lazy semantics (`$` matches at the end of the string
or just before one trailing newline, `.` does not match a newline).
-/

namespace Grok

/-- Python strings are modelled as lists of characters. -/
abbrev Str := List Char

/-- Whitespace as recognised by Python `str.strip` / `str.split` / `\s`
(ASCII subset). -/
def isPySpace (c : Char) : Bool :=
  c = ' ' ∨ c = '\t' ∨ c = '\n' ∨ c = '\r' ∨ c = '\x0b' ∨ c = '\x0c'

/-- Python `str.strip()`. -/
def pyStrip (s : Str) : Str :=
  ((s.dropWhile isPySpace).reverse.dropWhile isPySpace).reverse

/-- Python `str.lower()` (ASCII). -/
def pyLower (s : Str) : Str := s.map Char.toLower

/-- Python `needle in hay` substring test. -/
def isSubstr (needle : Str) : Str → Bool
  | [] => needle.isEmpty
  | c :: t => needle.isPrefixOf (c :: t) || isSubstr needle t

/-- Helper for `pyWords`: accumulate the current (reversed) word. -/
def pyWordsAux : Str → Str → List Str
  | [], acc => if acc = [] then [] else [acc.reverse]
  | c :: rest, acc =>
    if isPySpace c then
      (if acc = [] then pyWordsAux rest [] else acc.reverse :: pyWordsAux rest [])
    else pyWordsAux rest (c :: acc)

/-- Python `str.split()` with no argument: split on whitespace runs,
dropping empty pieces. -/
def pyWords (s : Str) : List Str := pyWordsAux s []

/-- First piece of Python `re.split(r'\s{2,}|\n', s)`: the prefix of `s`
up to the first newline or first run of two consecutive whitespace
characters. -/
def splitTrunc : Str → Str
  | [] => []
  | [c] => if c = '\n' then [] else [c]
  | c :: d :: rest =>
    if c = '\n' then []
    else if isPySpace c ∧ isPySpace d then []
    else c :: splitTrunc (d :: rest)

/-- `[A-Z]` character class. -/
def isUpperAZ (c : Char) : Bool := 'A' ≤ c ∧ c ≤ 'Z'

/-! ## The document tree -/

mutual
/-- A node of the parsed document: an element (tag) with a name, an
attribute list and children, or a bare text node (NavigableString). -/
inductive Node where
  | elem (name : Str) (attrs : List (Str × Str)) (children : NodeList)
  | text (s : Str)

/-- A sibling list of nodes.  Kept as its own inductive (rather than
`List Node`) so that every traversal below is plain structural recursion
and reduces in the kernel. -/
inductive NodeList where
  | nil
  | cons (head : Node) (tail : NodeList)
end

/-- Build a `NodeList` from a `List Node` (for concrete test documents). -/
def nl : List Node → NodeList
  | [] => .nil
  | n :: rest => .cons n (nl rest)

/-- Concrete element builder from string literals. -/
def el (name : String) (attrs : List (String × String)) (children : List Node) : Node :=
  .elem name.toList (attrs.map fun kv => (kv.1.toList, kv.2.toList)) (nl children)

/-- Concrete text-node builder from a string literal. -/
def tx (s : String) : Node := .text s.toList

/-- Python `tag.get(key, default)` on an attribute list. -/
def attrD (attrs : List (Str × Str)) (key d : Str) : Str :=
  match attrs.find? (fun kv => kv.1 == key) with
  | some kv => kv.2
  | none => d

/-- Attribute presence (BeautifulSoup `href=True` style filters). -/
def hasAttr (attrs : List (Str × Str)) (key : Str) : Bool :=
  (attrs.find? (fun kv => kv.1 == key)).isSome

/-- `tag.get(key, default)` lifted to a node (text nodes have no attributes). -/
def nodeAttrD (n : Node) (key d : Str) : Str :=
  match n with
  | .elem _ attrs _ => attrD attrs key d
  | .text _ => d

/-- Heading recognition of `find_all(['h1',...,'h6'])` together with
`int(heading.name[1])`. -/
def headingLevel? : Node → Option Nat
  | .elem name _ _ =>
    if name = "h1".toList then some 1
    else if name = "h2".toList then some 2
    else if name = "h3".toList then some 3
    else if name = "h4".toList then some 4
    else if name = "h5".toList then some 5
    else if name = "h6".toList then some 6
    else none
  | .text _ => none

/-- BeautifulSoup `tag.string`: the text of a chain of single children. -/
def tagString : Node → Option Str
  | .text s => some s
  | .elem _ _ (.cons c .nil) => tagString c
  | .elem _ _ _ => none

/-- All text fragments (NavigableStrings) below a sibling list, in
document order. -/
def textFragsL : NodeList → List Str
  | .nil => []
  | .cons (.text s) rest => s :: textFragsL rest
  | .cons (.elem _ _ cs) rest => textFragsL cs ++ textFragsL rest

/-- Text fragments of one node. -/
def textFragsN : Node → List Str
  | .text s => [s]
  | .elem _ _ cs => textFragsL cs

/-- BeautifulSoup `get_text(strip=True)` on one node: strip each fragment,
drop empties, join with the empty separator. -/
def getTextStrip (n : Node) : Str :=
  (((textFragsN n).map pyStrip).filter (fun s => !s.isEmpty)).flatten

/-- BeautifulSoup `get_text(separator='\n', strip=True)` on the whole
document. -/
def getTextSepStrip (doc : NodeList) : Str :=
  List.intercalate ['\n'] (((textFragsL doc).map pyStrip).filter (fun s => !s.isEmpty))

/-- `soup.find(predicate)`: first node in document (pre)order satisfying
`p`.  The filters used by main.py match only element nodes, which the
predicates below encode themselves. -/
def findFirstL (p : Node → Bool) : NodeList → Option Node
  | .nil => none
  | .cons (.text s) rest =>
    if p (.text s) then some (.text s) else findFirstL p rest
  | .cons (.elem n a cs) rest =>
    if p (.elem n a cs) then some (.elem n a cs)
    else
      match findFirstL p cs with
      | some r => some r
      | none => findFirstL p rest

/-- Like `findFirstL` but also returning the found node's following
sibling list (what `find_next_siblings` iterates). -/
def findNodeRestL (p : Node → Bool) : NodeList → Option (Node × NodeList)
  | .nil => none
  | .cons (.text s) rest =>
    if p (.text s) then some (.text s, rest) else findNodeRestL p rest
  | .cons (.elem n a cs) rest =>
    if p (.elem n a cs) then some (.elem n a cs, rest)
    else
      match findNodeRestL p cs with
      | some r => some r
      | none => findNodeRestL p rest

/-- All text-node strings of the document in order
(`find_all(string=...)` candidates). -/
def allTexts : NodeList → List Str
  | .nil => []
  | .cons (.text s) rest => s :: allTexts rest
  | .cons (.elem _ _ cs) rest => allTexts cs ++ allTexts rest

/-- `find_all('a', href=True)` over a sibling list: `href` values of all
anchor elements with an `href` attribute, in document order. -/
def linksL : NodeList → List Str
  | .nil => []
  | .cons (.text _) rest => linksL rest
  | .cons (.elem name attrs cs) rest =>
    (if name = "a".toList ∧ hasAttr attrs "href".toList then
      [attrD attrs "href".toList []] else [])
      ++ linksL cs ++ linksL rest

/-! ## Data model (Pydantic models of main.py) -/

/-- `Section` model: a section of an article. -/
structure Section where
  title : Str
  content : Str
  level : Nat
deriving DecidableEq

/-- `ArticleMetadata` model.  `last_updated` is never set by `get_article`
and keeps its default `None`. -/
structure ArticleMetadata where
  fact_checked : Option Str
  last_updated : Option Str
  word_count : Nat
deriving DecidableEq

/-- `Article` model: the complete article response. -/
structure Article where
  title : Str
  slug : Str
  url : Str
  summary : Str
  full_content : Str
  sections : List Section
  table_of_contents : List Str
  references : List Str
  metadata : ArticleMetadata
  scraped_at : Str
deriving DecidableEq

/-! ## extract_sections -/

/-- One heading occurrence: its stripped text, its level, and its
following sibling list (the nodes `find_next_siblings` iterates). -/
structure HEntry where
  title : Str
  level : Nat
  rest : NodeList

/-- All headings (`find_all(['h1'..'h6'])`) of the tree in document
order, each paired with its following siblings. -/
def headingsL : NodeList → List HEntry
  | .nil => []
  | .cons (.text _) rest => headingsL rest
  | .cons (.elem name attrs cs) rest =>
    (match headingLevel? (.elem name attrs cs) with
     | some lvl => [⟨getTextStrip (.elem name attrs cs), lvl, rest⟩]
     | none => []) ++ headingsL cs ++ headingsL rest

/-- The per-heading content walk of `extract_sections`: element siblings
until one whose tag name starts with `h` is hit; each contributes its
stripped text when non-empty. -/
def collectContent : NodeList → List Str
  | .nil => []
  | .cons (.text _) rest => collectContent rest
  | .cons (.elem name attrs cs) rest =>
    if ['h'].isPrefixOf name then []
    else
      let t := getTextStrip (.elem name attrs cs)
      (if t.isEmpty then [] else [t]) ++ collectContent rest

/-- `extract_sections` of main.py: skip the level-1 headings, then emit
a Section and a TOC entry per remaining heading. -/
def extract_sections (doc : NodeList) : List Section × List Str :=
  let kept := (headingsL doc).filter (fun e => e.level ≠ 1)
  (kept.map (fun e => ⟨e.title, List.intercalate [' '] (collectContent e.rest), e.level⟩),
   kept.map (fun e => e.title))

/-! ## extract_references -/

/-- The regex `^References?$` with `re.IGNORECASE` searched against a
string (`$` also matches before one trailing newline). -/
def matchesRefTitle (s : Str) : Bool :=
  let t := pyLower s
  t = "reference".toList ∨ t = "references".toList ∨
    t = "reference".toList ++ ['\n'] ∨ t = "references".toList ++ ['\n']

/-- The filter of `soup.find(['h2','h3'], string=re.compile(r'^References?$', re.IGNORECASE))`. -/
def isRefHeading (n : Node) : Bool :=
  match n with
  | .elem name _ _ =>
    (name = "h2".toList ∨ name = "h3".toList) &&
      (match tagString n with
       | some s => matchesRefTitle s
       | none => false)
  | .text _ => false

/-- The filter of `soup.find(id=value)`. -/
def hasId (v : Str) (n : Node) : Bool :=
  match n with
  | .elem _ attrs _ => attrD attrs "id".toList [] == v ∧ hasAttr attrs "id".toList
  | .text _ => false

/-- Locate the references heading as main.py does and return its
following sibling list. -/
def refRest (doc : NodeList) : Option NodeList :=
  match findNodeRestL isRefHeading doc with
  | some r => some r.2
  | none =>
    match findNodeRestL (hasId "references".toList) doc with
    | some r => some r.2
    | none =>
      match findNodeRestL (hasId "References".toList) doc with
      | some r => some r.2
      | none => none

/-- The sibling walk after the references heading: stop at the next
`h1`/`h2`; from each `ol`/`ul`/`p`/`div` collect descendant anchor
`href`s that start with `http`. -/
def collectRefLinks : NodeList → List Str
  | .nil => []
  | .cons (.text _) rest => collectRefLinks rest
  | .cons (.elem name _attrs cs) rest =>
    if name = "h1".toList ∨ name = "h2".toList then []
    else if name = "ol".toList ∨ name = "ul".toList ∨
            name = "p".toList ∨ name = "div".toList then
      ((linksL cs).filter (fun h => "http".toList.isPrefixOf h))
        ++ collectRefLinks rest
    else collectRefLinks rest

/-- Links gathered from the located references section (empty when no
references heading is found). -/
def primaryRefs (doc : NodeList) : List Str :=
  match refRest doc with
  | some rest => collectRefLinks rest
  | none => []

/-- The fallback of `extract_references`: every absolute link of the
document that does not point back to grokipedia.com. -/
def fallbackRefs (doc : NodeList) : List Str :=
  (linksL doc).filter
    (fun h => "http".toList.isPrefixOf h && !(isSubstr "grokipedia.com".toList h))

/-- The dedup loop of `extract_references` (seen-set plus ordered
output). -/
def dedupRefs (seen : List Str) : List Str → List Str
  | [] => []
  | r :: rest =>
    if r ∈ seen then dedupRefs seen rest
    else r :: dedupRefs (r :: seen) rest

/-- `extract_references` of main.py. -/
def extract_references (doc : NodeList) : List Str :=
  let references := primaryRefs doc
  let references := if references = [] then fallbackRefs doc else references
  dedupRefs [] references

/-! ## extract_fact_check_info -/

/-- The lazy group of `re.search(r'Fact-checked by (.+?)(?:\.|$)', _)`
matched at the start of the remainder after the literal: the shortest
non-empty newline-free prefix followed by a period or the string end
(`$` also matches before one trailing newline). -/
def lazyDotGroup : Str → Option Str
  | [] => none
  | c :: rest =>
    if c = '\n' then none
    else
      match rest with
      | [] => some [c]
      | ['\n'] => some [c]
      | '.' :: _ => some [c]
      | _ => (lazyDotGroup rest).map (fun g => c :: g)

/-- Literal `Fact-checked by ` (with trailing space, 16 characters). -/
def fcBySp : Str := "Fact-checked by ".toList

/-- Literal `Fact-checked by` (15 characters). -/
def fcBy : Str := "Fact-checked by".toList

/-- `re.search(r'Fact-checked by (.+?)(?:\.|$)', s)` returning
`group(1)`: scan start positions left to right. -/
def searchFCMeta : Str → Option Str
  | [] => none
  | c :: t =>
    if fcBySp.isPrefixOf (c :: t) then
      match lazyDotGroup ((c :: t).drop 16) with
      | some g => some g
      | none => searchFCMeta t
    else searchFCMeta t

/-- The terminator `(?:\s*[A-Z]|$)` of the page-text regex: greedy `\s*`
then an uppercase letter, or the string end. -/
def termUpperOrEnd (t : Str) : Bool :=
  (match t.dropWhile isPySpace with
   | c :: _ => isUpperAZ c
   | [] => false) || t = [] || t = ['\n']

/-- The lazy group `(.+?)` of the page-text regex against
`termUpperOrEnd`. -/
def lazyUpperGroup : Str → Option Str
  | [] => none
  | c :: rest =>
    if c = '\n' then none
    else if termUpperOrEnd rest then some [c]
    else (lazyUpperGroup rest).map (fun g => c :: g)

/-- Backtracking over the greedy `\s+` of the page-text regex: try the
longest whitespace run first, down to length one. -/
def tryWsLens (r : Str) : Nat → Option Str
  | 0 => none
  | k + 1 =>
    match lazyUpperGroup (r.drop (k + 1)) with
    | some g => some g
    | none => tryWsLens r k

/-- `re.search(r'Fact-checked by\s+(.+?)(?:\s*[A-Z]|$)', s)` returning
`group(1)`. -/
def searchFCText : Str → Option Str
  | [] => none
  | c :: t =>
    if fcBy.isPrefixOf (c :: t) then
      match tryWsLens ((c :: t).drop 15) (((c :: t).drop 15).takeWhile isPySpace).length with
      | some g => some g
      | none => searchFCText t
    else searchFCText t

/-- Method 1 of `extract_fact_check_info`: the `og:description` meta
content, when it mentions `Fact-checked` and the pattern matches. -/
def factCheckMetaTier (doc : NodeList) : Option Str :=
  match findFirstL (fun n =>
      match n with
      | .elem name attrs _ =>
        name = "meta".toList ∧ attrD attrs "property".toList [] == "og:description".toList
          ∧ hasAttr attrs "property".toList
      | .text _ => false) doc with
  | some m =>
    let content := nodeAttrD m "content".toList []
    if isSubstr "Fact-checked".toList content then
      (searchFCMeta content).map pyStrip
    else none
  | none => none

/-- Method 2 of `extract_fact_check_info`: walk the text nodes that
contain the phrase (case-insensitively), extract with the page-text
pattern, truncating at the first double space or newline. -/
def factCheckTextTier : List Str → Option Str
  | [] => none
  | s :: rest =>
    let text := pyStrip s
    match searchFCText text with
    | some g => some (splitTrunc (pyStrip g))
    | none => factCheckTextTier rest

/-- The text-node candidates of Method 2:
`soup.find_all(string=re.compile(r'Fact-checked by', re.IGNORECASE))`. -/
def factCheckCandidates (doc : NodeList) : List Str :=
  (allTexts doc).filter (fun s => isSubstr (pyLower fcBy) (pyLower s))

/-- `extract_fact_check_info` of main.py. -/
def extract_fact_check_info (doc : NodeList) : Option Str :=
  match factCheckMetaTier doc with
  | some v => some v
  | none => factCheckTextTier (factCheckCandidates doc)

/-! ## Summary selection of get_article (main.py lines 479-506) -/

/-- `soup.find('meta', {'property': p})`-style filter. -/
def isMetaWith (key val : Str) (n : Node) : Bool :=
  match n with
  | .elem name attrs _ =>
    name = "meta".toList ∧ attrD attrs key [] == val ∧ hasAttr attrs key
  | .text _ => false

/-- The meta-description lookup:
`soup.find('meta', {'property': 'og:description'}) or soup.find('meta', {'name': 'description'})`.
A found tag is always truthy, so an `og:description` hit short-circuits
the `name=description` lookup regardless of its content. -/
def metaDescLookup (doc : NodeList) : Option Node :=
  match findFirstL (isMetaWith "property".toList "og:description".toList) doc with
  | some m => some m
  | none => findFirstL (isMetaWith "name".toList "description".toList) doc

/-- Tier 1 of the summary: the stripped meta-description content, or the
empty string when no meta tag is found. -/
def summaryMeta (doc : NodeList) : Str :=
  match metaDescLookup doc with
  | some m => pyStrip (nodeAttrD m "content".toList [])
  | none => []

/-- The `h1` filter of `soup.find('h1')`. -/
def isH1 (n : Node) : Bool :=
  match n with
  | .elem name _ _ => name = "h1".toList
  | .text _ => false

/-- Tier 2 sibling scan: `title_tag.find_next_siblings(['p','div'])`,
first text longer than 200 characters that starts with neither
`Jump to` nor `From `. -/
def summarySibScan : NodeList → Str
  | .nil => []
  | .cons (.text _) rest => summarySibScan rest
  | .cons (.elem name attrs cs) rest =>
    if name = "p".toList ∨ name = "div".toList then
      let text := getTextStrip (.elem name attrs cs)
      if 200 < text.length ∧ ¬ "Jump to".toList.isPrefixOf text
          ∧ ¬ "From ".toList.isPrefixOf text then text
      else summarySibScan rest
    else summarySibScan rest

/-- Tier 2 of the summary: empty when the document has no `h1`. -/
def summaryTier2 (doc : NodeList) : Str :=
  match findNodeRestL isH1 doc with
  | some r => summarySibScan r.2
  | none => []

/-- Name filter for a single tag name. -/
def isNamed (name : Str) (n : Node) : Bool :=
  match n with
  | .elem n' _ _ => n' = name
  | .text _ => false

/-- `main_content = soup.find('article') or soup.find('main') or soup`,
as the sibling list whose descendants tier 3 scans. -/
def mainContentChildren (doc : NodeList) : NodeList :=
  match findFirstL (isNamed "article".toList) doc with
  | some (.elem _ _ cs) => cs
  | _ =>
    match findFirstL (isNamed "main".toList) doc with
    | some (.elem _ _ cs) => cs
    | _ => doc

/-- All `p` descendants of a sibling list in document order
(`main_content.find_all('p')`). -/
def allPs : NodeList → List Node
  | .nil => []
  | .cons (.text _) rest => allPs rest
  | .cons (.elem name attrs cs) rest =>
    (if name = "p".toList then [Node.elem name attrs cs] else [])
      ++ allPs cs ++ allPs rest

/-- First paragraph text longer than 200 characters. -/
def firstLongP : List Node → Str
  | [] => []
  | p :: rest =>
    let t := getTextStrip p
    if 200 < t.length then t else firstLongP rest

/-- Tier 3 of the summary: whole-document paragraph scan. -/
def summaryTier3 (doc : NodeList) : Str :=
  firstLongP (allPs (mainContentChildren doc))

/-- The complete summary selection of `get_article`. -/
def articleSummary (doc : NodeList) : Str :=
  let summary := summaryMeta doc
  if summary ≠ [] then summary
  else
    let summary2 := summaryTier2 doc
    if summary2 ≠ [] then summary2
    else summaryTier3 doc

/-! ## Article assembly (get_article, main.py lines 461-543) -/

/-- Tag names removed before computing plain text
(`soup(['script','style','nav','header','footer','button'])` followed by
`decompose`). -/
def strippedNames : List Str :=
  ["script", "style", "nav", "header", "footer", "button"].map String.toList

/-- Remove every element with a stripped tag name, together with its
subtree. -/
def stripL : NodeList → NodeList
  | .nil => .nil
  | .cons (.text s) rest => .cons (.text s) (stripL rest)
  | .cons (.elem name attrs cs) rest =>
    if name ∈ strippedNames then stripL rest
    else .cons (.elem name attrs (stripL cs)) (stripL rest)

/-- `BASE_URL` default of main.py. -/
def baseURL : Str := "https://grokipedia.com".toList

/-- `get_article` of main.py as a pure function of the parsed document,
the slug and the retrieval timestamp.  References and fact-check run on
the original tree; full text, word count and sections on the stripped
tree. -/
def get_article (doc : NodeList) (slug : Str) (scraped_at : Str) : Article :=
  let url := baseURL ++ "/page/".toList ++ slug
  let title_tag := findFirstL isH1 doc
  let title :=
    match title_tag with
    | some t => getTextStrip t
    | none => slug.map (fun c => if c = '_' then ' ' else c)
  let summary := articleSummary doc
  let references := extract_references doc
  let fact_checked := extract_fact_check_info doc
  let stripped := stripL doc
  let full_content := getTextSepStrip stripped
  let st := extract_sections stripped
  let word_count := (pyWords full_content).length
  { title := title, slug := slug, url := url, summary := summary,
    full_content := full_content, sections := st.1,
    table_of_contents := st.2, references := references,
    metadata := ⟨fact_checked, none, word_count⟩,
    scraped_at := scraped_at }

/-! ## fetch_html (main.py lines 278-309) -/

/-- An HTTPException: status code plus detail string. -/
structure HTTPError where
  status : Nat
  detail : Str
deriving DecidableEq

/-- What the upstream produced for one request: a final response (with
the message httpx would put in the raised `HTTPStatusError`, used only
for non-2xx statuses), a timeout, or another transport failure. -/
inductive UpstreamOutcome where
  | response (status : Nat) (body : Str) (errMsg : Str)
  | timeout
  | transportError (msg : Str)

/-- `fetch_html` of main.py as a function of the cache state and the
upstream outcome.  `raise_for_status` raises for every non-2xx status;
a 404 is mapped first, a timeout to 504, and any other exception to
500.  (The cache write after a successful fetch has no observable effect
on the returned value and is elided.) -/
def fetch_html (cached : Option Str) (url : Str) (outcome : UpstreamOutcome) :
    Except HTTPError Str :=
  match cached with
  | some h => .ok h
  | none =>
    match outcome with
    | .response status body errMsg =>
      if 200 ≤ status ∧ status < 300 then .ok body
      else if status = 404 then
        .error ⟨404, "Article not found: ".toList ++ url⟩
      else .error ⟨status, "Error fetching page: ".toList ++ errMsg⟩
    | .timeout =>
      .error ⟨504, "Request timeout - Grokipedia took too long to respond".toList⟩
    | .transportError msg =>
      .error ⟨500, "Error fetching page: ".toList ++ msg⟩

/-! ## get_article_section (main.py lines 601-624) -/

/-- The key the endpoint matches against:
`section_title.lower().replace('_', ' ')`. -/
def sectionKey (section_title : Str) : Str :=
  (pyLower section_title).map (fun c => if c = '_' then ' ' else c)

/-- The 404 detail `f"Section '{t}' not found in article '{s}'"`. -/
def sectionNotFoundDetail (section_title slug : Str) : Str :=
  "Section ".toList ++ ['\x27'] ++ section_title ++ ['\x27']
    ++ " not found in article ".toList ++ ['\x27'] ++ slug ++ ['\x27']

/-- `get_article_section` of main.py: the first section whose lowered
title contains the key, else a 404. -/
def get_article_section (doc : NodeList) (slug section_title scraped_at : Str) :
    Except HTTPError (Str × Section × Str) :=
  let article := get_article doc slug scraped_at
  let key := sectionKey section_title
  match article.sections.find? (fun s => isSubstr key (pyLower s.title)) with
  | some s => .ok (article.title, s, article.url)
  | none => .error ⟨404, sectionNotFoundDetail section_title slug⟩

/-! ## Helper lemmas -/

theorem dedupRefs_mem (x : Str) (l : List Str) :
    ∀ seen, x ∈ dedupRefs seen l ↔ x ∈ l ∧ x ∉ seen := by
  induction l with
  | nil => intro seen; simp [dedupRefs]
  | cons r rest ih =>
    intro seen
    by_cases h : r ∈ seen
    · rw [dedupRefs, if_pos h, ih seen]
      constructor
      · exact fun ⟨hm, hn⟩ => ⟨List.mem_cons_of_mem r hm, hn⟩
      · rintro ⟨hm, hn⟩
        rcases List.mem_cons.mp hm with rfl | hm'
        · exact absurd h hn
        · exact ⟨hm', hn⟩
    · rw [dedupRefs, if_neg h]
      constructor
      · intro hx
        rcases List.mem_cons.mp hx with rfl | hx'
        · exact ⟨List.mem_cons_self x rest, h⟩
        · rcases (ih (r :: seen)).mp hx' with ⟨hm, hn⟩
          exact ⟨List.mem_cons_of_mem r hm,
            fun hs => hn (List.mem_cons_of_mem r hs)⟩
      · rintro ⟨hm, hn⟩
        by_cases hxr : x = r
        · exact hxr ▸ List.mem_cons_self x _
        · rcases List.mem_cons.mp hm with rfl | hm'
          · exact absurd rfl hxr
          · exact List.mem_cons_of_mem r ((ih (r :: seen)).mpr
              ⟨hm', fun hs => (List.mem_cons.mp hs).elim hxr hn⟩)

theorem dedupRefs_sublist (l : List Str) :
    ∀ seen, List.Sublist (dedupRefs seen l) l := by
  induction l with
  | nil => intro seen; simp [dedupRefs]
  | cons r rest ih =>
    intro seen
    by_cases h : r ∈ seen
    · rw [dedupRefs, if_pos h]; exact (ih seen).cons r
    · rw [dedupRefs, if_neg h]; exact (ih (r :: seen)).cons₂ r

theorem dedupRefs_nodup (l : List Str) :
    ∀ seen, (dedupRefs seen l).Nodup := by
  induction l with
  | nil => intro seen; simp [dedupRefs]
  | cons r rest ih =>
    intro seen
    by_cases h : r ∈ seen
    · rw [dedupRefs, if_pos h]; exact ih seen
    · rw [dedupRefs, if_neg h]
      refine List.nodup_cons.mpr ⟨fun hmem => ?_, ih (r :: seen)⟩
      exact ((dedupRefs_mem r rest (r :: seen)).mp hmem).2 (List.mem_cons_self r seen)

theorem headingLevel?_bound (n : Node) (lvl : Nat)
    (h : headingLevel? n = some lvl) : 1 ≤ lvl ∧ lvl ≤ 6 := by
  cases n with
  | text s => simp [headingLevel?] at h
  | elem name attrs cs =>
    simp only [headingLevel?] at h
    split_ifs at h <;> simp_all <;> omega

theorem headingsL_level_bound :
    (cs : NodeList) → ∀ e ∈ headingsL cs, 1 ≤ e.level ∧ e.level ≤ 6
  | .nil => by simp [headingsL]
  | .cons (.text s) rest => by
    simpa [headingsL] using headingsL_level_bound rest
  | .cons (.elem name attrs cs) rest => by
    intro e he
    rw [headingsL] at he
    rcases List.mem_append.mp he with h1 | h2
    · rcases List.mem_append.mp h1 with h0 | hcs
      · rcases hl : headingLevel? (.elem name attrs cs) with _ | lvl
        · rw [hl] at h0; simp at h0
        · rw [hl] at h0
          simp only [List.mem_singleton] at h0
          subst h0
          exact headingLevel?_bound _ _ hl
      · exact headingsL_level_bound cs e hcs
    · exact headingsL_level_bound rest e h2

theorem find?_first {α : Type} (p : α → Bool) :
    (l : List α) → ∀ x, l.find? p = some x →
      p x = true ∧ ∃ l₁ l₂, l = l₁ ++ x :: l₂ ∧ ∀ y ∈ l₁, p y = false
  | [] => by simp
  | a :: l => by
    intro x h
    by_cases hpa : p a
    · rw [List.find?_cons_of_pos _ hpa] at h
      injection h with h'
      subst h'
      exact ⟨hpa, [], l, rfl, by simp⟩
    · rw [List.find?_cons_of_neg _ (by simpa using hpa)] at h
      obtain ⟨hx, l₁, l₂, heq, hall⟩ := find?_first p l x h
      refine ⟨hx, a :: l₁, l₂, by rw [heq]; rfl, ?_⟩
      intro y hy
      rcases List.mem_cons.mp hy with rfl | hy'
      · simpa using hpa
      · exact hall y hy'

/-! ## Claim theorems -/

/-- Test document for C3: an `h1` title, an `h2` and an `h3` with
paragraph content. -/
def C3doc : NodeList := nl [
  el "h1" [] [tx "Title"],
  el "h2" [] [tx "Sec A"],
  el "p" [] [tx "body a"],
  el "h3" [] [tx "Sec B"],
  el "p" [] [tx "body b1"], el "p" [] [tx "b2"]
]

/-- The first emitted Section of `C3doc`. -/
def C3secA : Section := ⟨"Sec A".toList, "body a".toList, 2⟩

/-- C3: for every parsed document tree, `extract_sections` returns a TOC
and a section list of equal length, the i-th TOC entry is the i-th
section title, every emitted level comes from its originating heading
(levels 1-6) and is at least 2 — top-level headings are excluded from
both. -/
theorem C3_sections_toc (doc : NodeList) :
    (extract_sections doc).2.length = (extract_sections doc).1.length ∧
    (extract_sections doc).2 = (extract_sections doc).1.map Section.title ∧
    ∀ s ∈ (extract_sections doc).1, (2 ≤ s.level ∧ s.level ≤ 6) ∧
      ∃ e ∈ headingsL doc, s.title = e.title ∧ s.level = e.level := by
  refine ⟨by simp [extract_sections], by simp [extract_sections, List.map_map], ?_⟩
  intro s hs
  simp only [extract_sections, List.mem_map] at hs
  obtain ⟨e, he, rfl⟩ := hs
  rcases List.mem_filter.mp he with ⟨hmem, hne⟩
  have hb := headingsL_level_bound doc e hmem
  have hne' : e.level ≠ 1 := by simpa using hne
  show (2 ≤ e.level ∧ e.level ≤ 6) ∧ _
  exact ⟨⟨by omega, hb.2⟩, e, hmem, rfl, rfl⟩

/-- C3 witness: the theorem applied to `C3doc` and its first section. -/
theorem C3_witness :
    (2 ≤ C3secA.level ∧ C3secA.level ≤ 6) ∧
    ∃ e ∈ headingsL C3doc, C3secA.title = e.title ∧ C3secA.level = e.level :=
  (C3_sections_toc C3doc).2.2 C3secA (by decide)

/-- C4: the assembled Article takes references and fact-check from the
unstripped tree, and full text, sections, TOC and word count from the
stripped tree. -/
theorem C4_pipeline_ordering (doc : NodeList) (slug ts : Str) :
    (get_article doc slug ts).references = extract_references doc ∧
    (get_article doc slug ts).metadata.fact_checked = extract_fact_check_info doc ∧
    (get_article doc slug ts).full_content = getTextSepStrip (stripL doc) ∧
    (get_article doc slug ts).sections = (extract_sections (stripL doc)).1 ∧
    (get_article doc slug ts).table_of_contents = (extract_sections (stripL doc)).2 ∧
    (get_article doc slug ts).metadata.word_count =
      (pyWords (getTextSepStrip (stripL doc))).length :=
  ⟨rfl, rfl, rfl, rfl, rfl, rfl⟩

/-- Test document for C7: a references block with links A, B, A, C. -/
def C7doc : NodeList := nl [
  el "h2" [] [tx "References"],
  el "ul" [] [el "a" [("href", "https://a.com")] [tx "1"],
              el "a" [("href", "https://b.com")] [tx "2"],
              el "a" [("href", "https://a.com")] [tx "3"],
              el "a" [("href", "https://c.com")] [tx "4"]]
]

/-- C7: the extracted reference list never contains duplicates; the dedup
pass keeps a subsequence of the collected links (so first-occurrence
order is preserved) without losing any URL; and the A, B, A, C block
yields exactly [A, B, C]. -/
theorem C7_dedup_first_order :
    (∀ doc, (extract_references doc).Nodup) ∧
    (∀ (l : List Str), List.Sublist (dedupRefs [] l) l) ∧
    (∀ (l : List Str) (x : Str), x ∈ dedupRefs [] l ↔ x ∈ l) ∧
    extract_references C7doc =
      ["https://a.com".toList, "https://b.com".toList, "https://c.com".toList] := by
  refine ⟨fun doc => dedupRefs_nodup _ [], fun l => dedupRefs_sublist l [],
    fun l x => ?_, by decide⟩
  rw [dedupRefs_mem x l []]
  simp

/-- C9: article assembly is deterministic apart from the retrieval
timestamp — two runs on the same tree agree on every other field. -/
theorem C9_idempotent_mod_timestamp (doc : NodeList) (slug t1 t2 : Str) :
    get_article doc slug t1 = { get_article doc slug t2 with scraped_at := t1 } :=
  rfl

theorem get_article_summary_eq (doc : NodeList) (slug ts : Str) :
    (get_article doc slug ts).summary = articleSummary doc := rfl

theorem articleSummary_meta (doc : NodeList) (h : summaryMeta doc ≠ []) :
    articleSummary doc = summaryMeta doc := by
  simp [articleSummary, h]

theorem articleSummary_tier2 (doc : NodeList) (h1 : summaryMeta doc = [])
    (h2 : summaryTier2 doc ≠ []) : articleSummary doc = summaryTier2 doc := by
  simp [articleSummary, h1, h2]

theorem articleSummary_tier3 (doc : NodeList) (h1 : summaryMeta doc = [])
    (h2 : summaryTier2 doc = []) : articleSummary doc = summaryTier3 doc := by
  simp [articleSummary, h1, h2]

theorem summarySibScan_long :
    (cs : NodeList) → summarySibScan cs ≠ [] → 200 < (summarySibScan cs).length
  | .nil => by simp [summarySibScan]
  | .cons (.text s) rest => by
    simpa [summarySibScan] using summarySibScan_long rest
  | .cons (.elem name attrs cs) rest => by
    simp only [summarySibScan]
    by_cases h1 : name = "p".toList ∨ name = "div".toList
    · rw [if_pos h1]
      by_cases h2 : 200 < (getTextStrip (.elem name attrs cs)).length ∧
          ¬ "Jump to".toList.isPrefixOf (getTextStrip (.elem name attrs cs))
          ∧ ¬ "From ".toList.isPrefixOf (getTextStrip (.elem name attrs cs))
      · rw [if_pos h2]; exact fun _ => h2.1
      · rw [if_neg h2]; exact summarySibScan_long rest
    · rw [if_neg h1]; exact summarySibScan_long rest

theorem firstLongP_long (ps : List Node) :
    firstLongP ps ≠ [] → 200 < (firstLongP ps).length := by
  induction ps with
  | nil => simp [firstLongP]
  | cons p rest ih =>
    simp only [firstLongP]
    by_cases h : 200 < (getTextStrip p).length
    · rw [if_pos h]; exact fun _ => h
    · rw [if_neg h]; exact ih

theorem summaryTier2_long (doc : NodeList) (h : summaryTier2 doc ≠ []) :
    200 < (summaryTier2 doc).length := by
  cases hf : findNodeRestL isH1 doc with
  | none => exact absurd (by rw [summaryTier2, hf]) h
  | some r =>
    have h' : summarySibScan r.2 ≠ [] := by rw [summaryTier2, hf] at h; exact h
    have hlen := summarySibScan_long r.2 h'
    rw [summaryTier2, hf]
    exact hlen

/-- Test document for C2: a non-empty `og:description` meta tag. -/
def C2doc : NodeList := nl [
  el "meta" [("property", "og:description"), ("content", "  Hi there ")] []
]

/-- The meta node of `C2doc`. -/
def C2meta : Node := el "meta" [("property", "og:description"), ("content", "  Hi there ")] []

/-- C2: summary selection is a strict priority chain — a non-empty
(trimmed) meta description is used verbatim regardless of paragraph
content; only with no meta content does the post-title sibling scan run,
and only when that finds nothing does the whole-document paragraph scan
run; each scan tier only ever produces a block longer than 200
characters. -/
theorem C2_summary_priority (doc : NodeList) (slug ts : Str) :
    (∀ m, metaDescLookup doc = some m →
       pyStrip (nodeAttrD m "content".toList []) ≠ [] →
       (get_article doc slug ts).summary = pyStrip (nodeAttrD m "content".toList [])) ∧
    (summaryMeta doc = [] → summaryTier2 doc ≠ [] →
       (get_article doc slug ts).summary = summaryTier2 doc) ∧
    (summaryMeta doc = [] → summaryTier2 doc = [] →
       (get_article doc slug ts).summary = summaryTier3 doc) ∧
    (summaryTier2 doc ≠ [] → 200 < (summaryTier2 doc).length) ∧
    (summaryTier3 doc ≠ [] → 200 < (summaryTier3 doc).length) := by
  refine ⟨?_, ?_, ?_, summaryTier2_long doc, fun h => firstLongP_long _ h⟩
  · intro m hm hne
    have hmeta : summaryMeta doc = pyStrip (nodeAttrD m "content".toList []) := by
      rw [summaryMeta, hm]
    rw [get_article_summary_eq, articleSummary_meta doc (by rw [hmeta]; exact hne), hmeta]
  · intro h1 h2
    rw [get_article_summary_eq, articleSummary_tier2 doc h1 h2]
  · intro h1 h2
    rw [get_article_summary_eq, articleSummary_tier3 doc h1 h2]

/-- C2 witness: on `C2doc` the meta content wins. -/
theorem C2_witness :
    metaDescLookup C2doc = some C2meta ∧
    pyStrip (nodeAttrD C2meta "content".toList []) ≠ [] ∧
    (get_article C2doc "S".toList "t".toList).summary = "Hi there".toList :=
  ⟨rfl, by decide, (C2_summary_priority C2doc "S".toList "t".toList).1 C2meta rfl (by decide)⟩

/-- C5: the fetch operation maps an upstream 404 to a 404 error whose
detail carries the requested URL, a timeout to a 504 error (no value is
produced), any other non-2xx status to a passthrough error, any other
transport failure to a 500 error, and a 2xx response to the raw markup
text. -/
theorem C5_fetch_taxonomy (url : Str) :
    (∀ b m, fetch_html none url (.response 404 b m) =
        .error ⟨404, "Article not found: ".toList ++ url⟩ ∧
        List.IsSuffix url ("Article not found: ".toList ++ url)) ∧
    (fetch_html none url .timeout =
      .error ⟨504, "Request timeout - Grokipedia took too long to respond".toList⟩) ∧
    (∀ st b m, ¬ (200 ≤ st ∧ st < 300) → st ≠ 404 →
       fetch_html none url (.response st b m) =
         .error ⟨st, "Error fetching page: ".toList ++ m⟩) ∧
    (∀ m, fetch_html none url (.transportError m) =
      .error ⟨500, "Error fetching page: ".toList ++ m⟩) ∧
    (∀ st b m, 200 ≤ st → st < 300 → fetch_html none url (.response st b m) = .ok b) := by
  refine ⟨fun b m => ⟨rfl, "Article not found: ".toList, rfl⟩, rfl, ?_, fun m => rfl, ?_⟩
  · intro st b m h1 h2
    simp only [fetch_html]
    rw [if_neg h1, if_neg h2]
  · intro st b m h1 h2
    simp only [fetch_html]
    rw [if_pos ⟨h1, h2⟩]

/-- C5 witness: concrete 500-passthrough and 200-success cases. -/
theorem C5_witness :
    fetch_html none "u".toList (.response 503 "b".toList "boom".toList) =
      .error ⟨503, "Error fetching page: ".toList ++ "boom".toList⟩ ∧
    fetch_html none "u".toList (.response 200 "b".toList []) = .ok "b".toList :=
  ⟨(C5_fetch_taxonomy "u".toList).2.2.1 503 "b".toList "boom".toList
      (by decide) (by decide),
   (C5_fetch_taxonomy "u".toList).2.2.2.2 200 "b".toList [] (by decide) (by decide)⟩

/-- Test document for C10: an `og:description` meta tag with
whitespace-only content next to a `name=description` meta tag with
non-empty content. -/
def C10doc : NodeList := nl [
  el "meta" [("property", "og:description"), ("content", "   ")] [],
  el "meta" [("name", "description"), ("content", "XYZ")] []
]

/-- C10: when an `og:description` meta tag exists, even with empty or
whitespace-only content, the `name=description` tag is never consulted:
the summary comes from the paragraph-scan fallback tiers. -/
theorem C10_og_blocks_name_desc (doc : NodeList) (slug ts : Str) (m : Node)
    (hog : findFirstL (isMetaWith "property".toList "og:description".toList) doc = some m)
    (hempty : pyStrip (nodeAttrD m "content".toList []) = []) :
    (get_article doc slug ts).summary =
      if summaryTier2 doc ≠ [] then summaryTier2 doc else summaryTier3 doc := by
  have hlookup : metaDescLookup doc = some m := by rw [metaDescLookup, hog]
  have hmeta : summaryMeta doc = [] := by rw [summaryMeta, hlookup]; exact hempty
  by_cases h2 : summaryTier2 doc ≠ []
  · rw [if_pos h2, get_article_summary_eq, articleSummary_tier2 doc hmeta h2]
  · rw [if_neg h2, get_article_summary_eq,
      articleSummary_tier3 doc hmeta (by simpa using h2)]

/-- C10 witness: on `C10doc` the summary is empty even though the
`name=description` tag holds `XYZ`. -/
theorem C10_witness :
    (get_article C10doc "S".toList "t".toList).summary =
      (if summaryTier2 C10doc ≠ [] then summaryTier2 C10doc else summaryTier3 C10doc) ∧
    (findFirstL (isMetaWith "name".toList "description".toList) C10doc).map
      (fun n => nodeAttrD n "content".toList []) = some "XYZ".toList ∧
    (get_article C10doc "S".toList "t".toList).summary = [] :=
  ⟨C10_og_blocks_name_desc C10doc "S".toList "t".toList
      (el "meta" [("property", "og:description"), ("content", "   ")] []) rfl (by decide),
   by decide, by decide⟩

theorem collectRefLinks_http :
    (cs : NodeList) → ∀ r ∈ collectRefLinks cs, "http".toList.isPrefixOf r = true
  | .nil => by simp [collectRefLinks]
  | .cons (.text s) rest => by
    simpa [collectRefLinks] using collectRefLinks_http rest
  | .cons (.elem name attrs cs) rest => by
    intro r hr
    rw [collectRefLinks] at hr
    by_cases h1 : name = "h1".toList ∨ name = "h2".toList
    · rw [if_pos h1] at hr; simp at hr
    · rw [if_neg h1] at hr
      by_cases h2 : name = "ol".toList ∨ name = "ul".toList ∨
          name = "p".toList ∨ name = "div".toList
      · rw [if_pos h2] at hr
        rcases List.mem_append.mp hr with hf | hrest
        · exact (List.mem_filter.mp hf).2
        · exact collectRefLinks_http rest r hrest
      · rw [if_neg h2] at hr
        exact collectRefLinks_http rest r hr

theorem extract_references_eq (doc : NodeList) :
    extract_references doc =
      dedupRefs [] (if primaryRefs doc = [] then fallbackRefs doc else primaryRefs doc) :=
  rfl

/-- Counterexample document for C1: a References heading followed by a
list holding an absolute link back to the source domain. -/
def C1doc : NodeList := nl [
  el "h2" [] [tx "References"],
  el "ul" [] [el "a" [("href", "https://grokipedia.com/page/X")] [tx "x"]]
]

/-- C1 counterexample: the references-section branch keeps absolute
self-referential links, so the extracted list can contain a URL of the
source site's own domain. -/
theorem C1_counterexample :
    extract_references C1doc = ["https://grokipedia.com/page/X".toList] ∧
    isSubstr "grokipedia.com".toList "https://grokipedia.com/page/X".toList = true :=
  ⟨by decide, by decide⟩

/-- Document for C1 with one relative internal link and one external
absolute link under the References heading. -/
def C1docRel : NodeList := nl [
  el "h2" [] [tx "References"],
  el "ul" [] [el "a" [("href", "/page/X")] [tx "x"],
              el "a" [("href", "https://example.com/a")] [tx "y"]]
]

/-- Document for C1 with no references section at all (fallback scan). -/
def C1docFall : NodeList := nl [
  el "a" [("href", "https://grokipedia.com/x")] [tx "s"],
  el "a" [("href", "https://e.com")] [tx "e"]
]

/-- C1 (amended): for a References heading followed by a list with one
relative internal link and one external absolute link, only the external
absolute URL is collected (relative links never qualify since every
extracted reference starts with `http`); the exclusion of links to the
source site's own domain holds whenever the references-section scan
yields nothing and the whole-document fallback runs. -/
theorem C1_references_domains :
    extract_references C1docRel = ["https://example.com/a".toList] ∧
    (∀ doc r, r ∈ extract_references doc → "http".toList.isPrefixOf r = true) ∧
    (∀ doc r, primaryRefs doc = [] → r ∈ extract_references doc →
       isSubstr "grokipedia.com".toList r = false) := by
  refine ⟨by decide, ?_, ?_⟩
  · intro doc r hr
    rw [extract_references_eq] at hr
    have h2 : r ∈ (if primaryRefs doc = [] then fallbackRefs doc else primaryRefs doc) :=
      ((dedupRefs_mem r _ []).mp hr).1
    by_cases hp : primaryRefs doc = []
    · rw [if_pos hp] at h2
      exact (Bool.and_eq_true _ _).mp (List.mem_filter.mp h2).2 |>.1
    · rw [if_neg hp] at h2
      cases hrr : refRest doc with
      | none => exact absurd (by rw [primaryRefs, hrr]) hp
      | some rest =>
        rw [primaryRefs, hrr] at h2
        exact collectRefLinks_http rest r h2
  · intro doc r hp hr
    rw [extract_references_eq] at hr
    have h2 : r ∈ (if primaryRefs doc = [] then fallbackRefs doc else primaryRefs doc) :=
      ((dedupRefs_mem r _ []).mp hr).1
    rw [if_pos hp] at h2
    have hb := (Bool.and_eq_true _ _).mp (List.mem_filter.mp h2).2 |>.2
    simpa using hb

/-- C1 witness: the general parts of the amended theorem at concrete
documents. -/
theorem C1_witness :
    "http".toList.isPrefixOf "https://example.com/a".toList = true ∧
    isSubstr "grokipedia.com".toList "https://e.com".toList = false :=
  ⟨C1_references_domains.2.1 C1docRel "https://example.com/a".toList (by decide),
   C1_references_domains.2.2 C1docFall "https://e.com".toList (by decide) (by decide)⟩

/-! ## C6 -/

/-- The page-text fact-check tier as the specification words it: the
*same* pattern as the meta tier (name up to a sentence terminator),
followed by the double-space / line-break truncation.  This follows the
spec sentence, not the source, and exists only to be compared with the
source's `factCheckTextTier`. -/
def factCheckTextTierAsSpecified : List Str → Option Str
  | [] => none
  | s :: rest =>
    match searchFCMeta (pyStrip s) with
    | some g => some (splitTrunc (pyStrip g))
    | none => factCheckTextTierAsSpecified rest

/-- Counterexample document for C6: no meta tag, a single text node
whose attribution ends with a period. -/
def C6doc : NodeList := nl [tx "Fact-checked by Grok."]

/-- C6 counterexample: on `C6doc` the code's text tier returns
`Grok.` (the terminator `(?:\s*[A-Z]|$)` matches at the end of the text,
keeping the period), while the pattern the claim prescribes — the meta
tier's sentence-terminator pattern — would return `Grok`. -/
theorem C6_counterexample :
    extract_fact_check_info C6doc = some "Grok.".toList ∧
    factCheckTextTierAsSpecified (factCheckCandidates C6doc) = some "Grok".toList ∧
    "Grok.".toList ≠ "Grok".toList :=
  ⟨by decide, by decide, by decide⟩

/-- Meta-tier document for C6. -/
def C6docMeta : NodeList := nl [
  el "meta" [("property", "og:description"),
             ("content", "Fact-checked by Grok. More text")] []
]

/-- Truncation document for C6: double space inside the page text. -/
def C6docTrunc : NodeList := nl [tx "Fact-checked by grok  extra"]

/-- C6 (amended): the meta tier is searched first and, when it matches,
its attributed name (up to a sentence terminator) is returned; when the
meta tier produces nothing the text-node tier runs, whose pattern
captures up to the next whitespace-preceded uppercase letter or the end
of the text (a trailing sentence terminator may be retained), truncating
at the first double space or line break; when both tiers produce
nothing, the result is None — never an error. -/
theorem C6_fact_check_tiers :
    (∀ doc v, factCheckMetaTier doc = some v → extract_fact_check_info doc = some v) ∧
    (∀ doc, factCheckMetaTier doc = none →
       extract_fact_check_info doc = factCheckTextTier (factCheckCandidates doc)) ∧
    (∀ doc, factCheckMetaTier doc = none →
       factCheckTextTier (factCheckCandidates doc) = none →
       extract_fact_check_info doc = none) ∧
    extract_fact_check_info C6docMeta = some "Grok".toList ∧
    extract_fact_check_info C6doc = some "Grok.".toList ∧
    extract_fact_check_info C6docTrunc = some "grok".toList := by
  refine ⟨?_, ?_, ?_, by decide, by decide, by decide⟩
  · intro doc v h; rw [extract_fact_check_info, h]
  · intro doc h; rw [extract_fact_check_info, h]
  · intro doc h1 h2; rw [extract_fact_check_info, h1]; exact h2

/-- C6 witness: the meta tier of `C6docMeta` wins. -/
theorem C6_witness : extract_fact_check_info C6docMeta = some "Grok".toList :=
  C6_fact_check_tiers.1 C6docMeta "Grok".toList (by decide)

/-! ## C8 -/

/-- Counterexample document for C8: one section titled `A b`. -/
def C8doc : NodeList := nl [el "h2" [] [tx "A b"]]

/-- C8 counterexample: the query `a_b` is not a case-insensitive
substring of any section title of `C8doc`, yet the endpoint returns the
section `A b` instead of a 404, because it first replaces underscores
with spaces. -/
theorem C8_counterexample :
    get_article_section C8doc "X".toList "a_b".toList "t".toList =
      .ok ("X".toList, ⟨"A b".toList, [], 2⟩, baseURL ++ "/page/X".toList) ∧
    ((get_article C8doc "X".toList "t".toList).sections.all
      (fun s => !(isSubstr (pyLower "a_b".toList) (pyLower s.title)))) = true :=
  ⟨rfl, by decide⟩

/-- C8 (amended): the endpoint lowercases the query and replaces
underscores with spaces; it returns the first Section in document order
whose lowered title contains that key, and fails with a 404 whose detail
names the requested section title if and only if no section title
contains the key. -/
theorem C8_section_matching (doc : NodeList) (slug q ts : Str) :
    (∀ t s u, get_article_section doc slug q ts = .ok (t, s, u) →
       t = (get_article doc slug ts).title ∧ u = (get_article doc slug ts).url ∧
       isSubstr (sectionKey q) (pyLower s.title) = true ∧
       ∃ l₁ l₂, (get_article doc slug ts).sections = l₁ ++ s :: l₂ ∧
         ∀ x ∈ l₁, isSubstr (sectionKey q) (pyLower x.title) = false) ∧
    ((∀ s ∈ (get_article doc slug ts).sections,
        isSubstr (sectionKey q) (pyLower s.title) = false) ↔
      get_article_section doc slug q ts = .error ⟨404, sectionNotFoundDetail q slug⟩) := by
  have hsec : get_article_section doc slug q ts =
      match (get_article doc slug ts).sections.find?
          (fun s => isSubstr (sectionKey q) (pyLower s.title)) with
      | some s => .ok ((get_article doc slug ts).title, s, (get_article doc slug ts).url)
      | none => .error ⟨404, sectionNotFoundDetail q slug⟩ := rfl
  constructor
  · intro t s u h
    rw [hsec] at h
    cases hfind : (get_article doc slug ts).sections.find?
        (fun s => isSubstr (sectionKey q) (pyLower s.title)) with
    | none => rw [hfind] at h; exact absurd h (by simp)
    | some s' =>
      rw [hfind] at h
      simp only [Except.ok.injEq, Prod.mk.injEq] at h
      obtain ⟨ht, hs, hu⟩ := h
      subst ht; subst hs; subst hu
      obtain ⟨hp, l₁, l₂, heq, hall⟩ := find?_first _ _ _ hfind
      exact ⟨rfl, rfl, hp, l₁, l₂, heq, hall⟩
  · constructor
    · intro hall
      have hnone : (get_article doc slug ts).sections.find?
          (fun s => isSubstr (sectionKey q) (pyLower s.title)) = none :=
        List.find?_eq_none.mpr (fun x hx => by simp [hall x hx])
      rw [hsec, hnone]
    · intro herr s hs
      cases hfind : (get_article doc slug ts).sections.find?
          (fun s => isSubstr (sectionKey q) (pyLower s.title)) with
      | some s' => rw [hsec, hfind] at herr; exact absurd herr (by simp)
      | none => simpa using List.find?_eq_none.mp hfind s hs

/-- C8 witness: the amended theorem applied to `C8doc` and query
`a_b`, whose transformed key `a b` matches the section `A b`. -/
theorem C8_witness :
    isSubstr (sectionKey "a_b".toList) (pyLower ("A b".toList : Str)) = true ∧
    ∃ l₁ l₂, (get_article C8doc "X".toList "t".toList).sections =
        l₁ ++ (⟨"A b".toList, [], 2⟩ : Section) :: l₂ ∧
      ∀ x ∈ l₁, isSubstr (sectionKey "a_b".toList) (pyLower x.title) = false :=
  ((C8_section_matching C8doc "X".toList "a_b".toList "t".toList).1
    "X".toList (⟨"A b".toList, [], 2⟩ : Section) (baseURL ++ "/page/X".toList) rfl).2.2

end Grok
